import Mathlib

/-!
Verification of the Schema Symbol & Location Resolution Engine of
dnephin/proto-gen-html (package `tmpl`, files `funcs.go` / `generator.go`,
plus the `util` resolver package).

The engine operates on the protoc descriptor tree
(`github.com/golang/protobuf/protoc-gen-go/descriptor`).  The embedding
models the descriptor structs with the fields belonging to the engine's
data model (file name/package/dependencies, the message/enum/field tree,
and source-code info); option-, service-, oneof- and range-valued struct
fields lie outside that data model and outside every verified statement,
so they are not modelled.  Protobuf struct tags are carried verbatim so
that the reflection-driven dispatch of `protoFields` (splitting the tag
on commas and parsing the second element with `strconv.Atoi`) is
translated literally.

Go string functions used by the code are re-implemented over `String.data`
(`strings.Split` with a one-character separator, `strconv.Atoi`,
`filepath.Ext`) so that every definition evaluates by kernel reduction.

Go interface values returned by `walkPath` carry identity (the pointer)
as well as content.  The descriptor tree is built once by proto
unmarshalling and never mutated or shared, so a pointer into the tree is
determined by the access path from the file root; `GoVal.addr` models the
pointer as that path, and `goEq` models Go's `==` on interface values
(pointer identity for pointer-typed nodes, value equality for string and
int32 slice elements and for nil pointers of equal type).

Functions that can panic are embedded with the outcome type `GoResult`:
`.ok` is an ordinary return, `.panic` an aborting Go panic.
-/

/-- Outcome of a Go call: an ordinary return value, or a panic that
aborts the process (nothing in this program recovers). -/
inductive GoResult (α : Type) where
  | ok (val : α)
  | panic (msg : String)
deriving DecidableEq

namespace ProtoGenHtml

/-- Go `strings.Split(s, sep)` for a one-character separator `sep`,
implemented by structural recursion over the character list. -/
def goSplitCharAux (sep : Char) : List Char → List Char → List String
  | [], acc => [String.mk acc.reverse]
  | c :: rest, acc =>
    if c = sep then String.mk acc.reverse :: goSplitCharAux sep rest []
    else goSplitCharAux sep rest (c :: acc)

/-- Go `strings.Split(s, sep)` for a one-character separator (the code
only splits on "," and "."). -/
def goSplitChar (sep : Char) (s : String) : List String :=
  goSplitCharAux sep s.data []

/-- Decimal digit run parser for `goAtoi`. -/
def parseDigitsAux : List Char → Nat → Option Nat
  | [], acc => some acc
  | c :: rest, acc =>
    if c.isDigit then parseDigitsAux rest (acc * 10 + (c.toNat - 48)) else none

/-- Go `strconv.Atoi`: optional sign followed by at least one decimal
digit; anything else is an error (`none`). -/
def goAtoi (s : String) : Option Int :=
  match s.data with
  | [] => none
  | '-' :: rest =>
    if rest.isEmpty then none else (parseDigitsAux rest 0).map (fun n => -(n : Int))
  | '+' :: rest =>
    if rest.isEmpty then none else (parseDigitsAux rest 0).map Int.ofNat
  | l => (parseDigitsAux l 0).map Int.ofNat

/-- Helper for Go `filepath.Ext` / `path.Ext`: scan the reversed character
list until a dot (return the extension including the dot) or a slash or
the start of the string (no extension). -/
def goExtAux : List Char → List Char → String
  | [], _ => ""
  | c :: rest, acc =>
    if c = '.' then String.mk ('.' :: acc)
    else if c = '/' then ""
    else goExtAux rest (c :: acc)

/-- Go `filepath.Ext` / `path.Ext`: the suffix beginning at the final dot
in the final slash-separated element, empty if there is none. -/
def goExt (s : String) : String := goExtAux s.data.reverse []

/-- Embedding of `trimExt` (funcs.go): strip the extension off the path.
Character counts stand in for Go byte counts (all inputs are ASCII). -/
def trimExt (s : String) : String :=
  let ext := goExt s
  if ext.length > 0 then String.mk (s.data.take (s.data.length - ext.length)) else s

/-- Embedding of Go `path.Join(a, b)` restricted to the shapes the code
uses. Go additionally cleans the joined path; no verified statement
evaluates a joined path, so cleaning is not modelled. -/
def goPathJoin (a b : String) : String :=
  if a = "" then b else if b = "" then a else a ++ "/" ++ b

/-- Descriptor struct `FieldDescriptorProto` (the fields inside the
engine's data model; the `Options` field, tag 8, is outside it). -/
structure FieldDescriptorProto where
  name : Option String
  number : Option Int
  label : Option Int
  type : Option Int
  typeName : Option String
  extendee : Option String
  defaultValue : Option String
  oneofIndex : Option Int
  jsonName : Option String

/-- Descriptor struct `EnumValueDescriptorProto` (`Options`, tag 3,
outside the data model). -/
structure EnumValueDescriptorProto where
  name : Option String
  number : Option Int

/-- Descriptor struct `EnumDescriptorProto` (`Options`, tag 3, outside
the data model). -/
structure EnumDescriptorProto where
  name : Option String
  value : List EnumValueDescriptorProto

/-- Descriptor struct `DescriptorProto` (a message definition).  Fields
are listed in the Go struct's declaration order: name, field, extension,
nested_type, enum_type, reserved_name.  The extension-range, options,
one-of and reserved-range fields are outside the engine's data model. -/
inductive DescriptorProto where
  | mk (name : Option String) (field : List FieldDescriptorProto)
      (extensionList : List FieldDescriptorProto)
      (nestedType : List DescriptorProto)
      (enumType : List EnumDescriptorProto)
      (reservedName : List String)

/-- Message name accessor. -/
def DescriptorProto.name : DescriptorProto → Option String
  | .mk n _ _ _ _ _ => n

/-- Message field-list accessor. -/
def DescriptorProto.field : DescriptorProto → List FieldDescriptorProto
  | .mk _ f _ _ _ _ => f

/-- Message extension-list accessor. -/
def DescriptorProto.extensionList : DescriptorProto → List FieldDescriptorProto
  | .mk _ _ e _ _ _ => e

/-- Message nested-type accessor. -/
def DescriptorProto.nestedType : DescriptorProto → List DescriptorProto
  | .mk _ _ _ n _ _ => n

/-- Message nested-enum accessor. -/
def DescriptorProto.enumType : DescriptorProto → List EnumDescriptorProto
  | .mk _ _ _ _ e _ => e

/-- Message reserved-name accessor. -/
def DescriptorProto.reservedName : DescriptorProto → List String
  | .mk _ _ _ _ _ r => r

/-- Descriptor struct `SourceCodeInfo_Location`: one Location Record, an
index path plus a source span and comment text. -/
structure SourceCodeLocation where
  path : List Int
  span : List Int
  leadingComments : Option String
  trailingComments : Option String
  leadingDetachedComments : List String

/-- Descriptor struct `SourceCodeInfo`: a file's Location Records. -/
structure SourceCodeInfo where
  location : List SourceCodeLocation

/-- Descriptor struct `FileDescriptorProto` in Go declaration order:
name, package, dependency, public_dependency, weak_dependency,
message_type, enum_type, service, extension, options, source_code_info,
syntax.  Service (tag 6) and options (tag 8) are outside the engine's
data model; the `Syntax` field is called `syntaxField` because its Go
name is a Lean keyword. -/
structure FileDescriptorProto where
  name : Option String
  package : Option String
  dependency : List String
  publicDependency : List Int
  weakDependency : List Int
  messageType : List DescriptorProto
  enumType : List EnumDescriptorProto
  extensionList : List FieldDescriptorProto
  sourceCodeInfo : Option SourceCodeInfo
  syntaxField : Option String

/-- Go `GetName()` on a `*FileDescriptorProto`: empty string when absent. -/
def FileDescriptorProto.getName (f : FileDescriptorProto) : String :=
  f.name.getD ""

/-- Go `GetPackage()` on a `*FileDescriptorProto`. -/
def FileDescriptorProto.getPackage (f : FileDescriptorProto) : String :=
  f.package.getD ""

/-- Content of a Go `interface{}` value as handed around by `walkPath` /
`protoFields`: a descriptor node, a slice of such, or a scalar field.
Pointer-typed scalars (`*string`, `*int32` and the two generated enum
pointer types) are separate constructors from value-typed slice elements
because Go's `==` treats them differently. -/
inductive GoNode where
  | file (f : FileDescriptorProto)
  | msg (m : DescriptorProto)
  | fieldD (f : FieldDescriptorProto)
  | enum (e : EnumDescriptorProto)
  | enumValue (v : EnumValueDescriptorProto)
  | sciPtr (s : Option SourceCodeInfo)
  | loc (l : SourceCodeLocation)
  | msgList (l : List DescriptorProto)
  | fieldList (l : List FieldDescriptorProto)
  | enumList (l : List EnumDescriptorProto)
  | enumValueList (l : List EnumValueDescriptorProto)
  | locList (l : List SourceCodeLocation)
  | strList (l : List String)
  | intList (l : List Int)
  | strPtr (s : Option String)
  | intPtr (n : Option Int)
  | labelPtr (n : Option Int)
  | typePtr (n : Option Int)
  | strElem (s : String)
  | intElem (n : Int)

/-- Protobuf struct tags of `FileDescriptorProto` paired with the field
values, in Go declaration order, exactly as `reflect` reports them. -/
def fileStructTags (f : FileDescriptorProto) : List (String × GoNode) :=
  [("bytes,1,opt,name=name", .strPtr f.name),
   ("bytes,2,opt,name=package", .strPtr f.package),
   ("bytes,3,rep,name=dependency", .strList f.dependency),
   ("varint,10,rep,name=public_dependency,json=publicDependency", .intList f.publicDependency),
   ("varint,11,rep,name=weak_dependency,json=weakDependency", .intList f.weakDependency),
   ("bytes,4,rep,name=message_type,json=messageType", .msgList f.messageType),
   ("bytes,5,rep,name=enum_type,json=enumType", .enumList f.enumType),
   ("bytes,7,rep,name=extension", .fieldList f.extensionList),
   ("bytes,9,opt,name=source_code_info,json=sourceCodeInfo", .sciPtr f.sourceCodeInfo),
   ("bytes,12,opt,name=syntax", .strPtr f.syntaxField)]

/-- Protobuf struct tags of `DescriptorProto`, in Go declaration order. -/
def msgStructTags (m : DescriptorProto) : List (String × GoNode) :=
  [("bytes,1,opt,name=name", .strPtr m.name),
   ("bytes,2,rep,name=field", .fieldList m.field),
   ("bytes,6,rep,name=extension", .fieldList m.extensionList),
   ("bytes,3,rep,name=nested_type,json=nestedType", .msgList m.nestedType),
   ("bytes,4,rep,name=enum_type,json=enumType", .enumList m.enumType),
   ("bytes,10,rep,name=reserved_name,json=reservedName", .strList m.reservedName)]

/-- Protobuf struct tags of `FieldDescriptorProto`, in Go declaration
order (which is not tag order: extendee carries tag 2 but is declared
sixth). -/
def fieldStructTags (f : FieldDescriptorProto) : List (String × GoNode) :=
  [("bytes,1,opt,name=name", .strPtr f.name),
   ("varint,3,opt,name=number", .intPtr f.number),
   ("varint,4,opt,name=label,enum=google.protobuf.FieldDescriptorProto_Label", .labelPtr f.label),
   ("varint,5,opt,name=type,enum=google.protobuf.FieldDescriptorProto_Type", .typePtr f.type),
   ("bytes,6,opt,name=type_name,json=typeName", .strPtr f.typeName),
   ("bytes,2,opt,name=extendee", .strPtr f.extendee),
   ("bytes,7,opt,name=default_value,json=defaultValue", .strPtr f.defaultValue),
   ("varint,9,opt,name=oneof_index,json=oneofIndex", .intPtr f.oneofIndex),
   ("bytes,10,opt,name=json_name,json=jsonName", .strPtr f.jsonName)]

/-- Protobuf struct tags of `EnumDescriptorProto`. -/
def enumStructTags (e : EnumDescriptorProto) : List (String × GoNode) :=
  [("bytes,1,opt,name=name", .strPtr e.name),
   ("bytes,2,rep,name=value", .enumValueList e.value)]

/-- Protobuf struct tags of `EnumValueDescriptorProto`. -/
def enumValueStructTags (v : EnumValueDescriptorProto) : List (String × GoNode) :=
  [("bytes,1,opt,name=name", .strPtr v.name),
   ("varint,2,opt,name=number", .intPtr v.number)]

/-- Protobuf struct tags of `SourceCodeInfo`. -/
def sciStructTags (s : SourceCodeInfo) : List (String × GoNode) :=
  [("bytes,1,rep,name=location", .locList s.location)]

/-- Protobuf struct tags of `SourceCodeInfo_Location`. -/
def locStructTags (l : SourceCodeLocation) : List (String × GoNode) :=
  [("varint,1,rep,packed,name=path", .intList l.path),
   ("varint,2,rep,packed,name=span", .intList l.span),
   ("bytes,3,opt,name=leading_comments,json=leadingComments", .strPtr l.leadingComments),
   ("bytes,4,opt,name=trailing_comments,json=trailingComments", .strPtr l.trailingComments),
   ("bytes,6,rep,name=leading_detached_comments,json=leadingDetachedComments", .strList l.leadingDetachedComments)]

/-- Embedding of the tag-parsing step of `protoFields` (funcs.go): split
the protobuf tag on commas, skip the field unless there are at least two
elements, parse the second with `strconv.Atoi`, skip on parse error. -/
def parseTagId (tag : String) : Option Int :=
  match goSplitChar ',' tag with
  | _ :: second :: _ => goAtoi second
  | _ => none

/-- Tag-ID/value pairs obtained from a struct's protobuf tags, in field
declaration order, with unparsable tags skipped (the `continue` branches
of `protoFields`). -/
def parseStructTags : List (String × GoNode) → List (Int × GoNode)
  | [] => []
  | (tag, v) :: rest =>
    match parseTagId tag with
    | some id => (id, v) :: parseStructTags rest
    | none => parseStructTags rest

/-- Index/element pairs for the slice case of `protoFields`. -/
def idxChildren (f : α → GoNode) (l : List α) : List (Int × GoNode) :=
  l.enum.map (fun p => ((p.1 : Int), f p.2))

/-- Embedding of `protoFields` (funcs.go lines 287-319): the ordered
(id, value) pairs the reflection walk feeds to its callback.  A struct
yields its fields' parsed tag IDs in declaration order; a slice yields
index/element pairs; anything else (strings, ints, nil pointers) yields
nothing, because `reflect.Indirect(...).Kind()` is neither `Slice` nor
`Struct` there. -/
def protoFields : GoNode → List (Int × GoNode)
  | .file f => parseStructTags (fileStructTags f)
  | .msg m => parseStructTags (msgStructTags m)
  | .fieldD f => parseStructTags (fieldStructTags f)
  | .enum e => parseStructTags (enumStructTags e)
  | .enumValue v => parseStructTags (enumValueStructTags v)
  | .sciPtr (some s) => parseStructTags (sciStructTags s)
  | .sciPtr none => []
  | .loc l => parseStructTags (locStructTags l)
  | .msgList l => idxChildren .msg l
  | .fieldList l => idxChildren .fieldD l
  | .enumList l => idxChildren .enum l
  | .enumValueList l => idxChildren .enumValue l
  | .locList l => idxChildren .loc l
  | .strList l => idxChildren .strElem l
  | .intList l => idxChildren .intElem l
  | .strPtr _ => []
  | .intPtr _ => []
  | .labelPtr _ => []
  | .typePtr _ => []
  | .strElem _ => []
  | .intElem _ => []

/-- The walker's scan of one level: `protoFields` invokes the callback on
each (id, value) pair in order and the callback skips pairs whose id
differs from the current path element (`if id != target`). -/
def childAt : List (Int × GoNode) → Int → Option GoNode
  | [], _ => none
  | c :: rest, t => if c.1 = t then some c.2 else childAt rest t

/-- Recursive core of `walkPath` (funcs.go lines 258-283).  The Go code
implements this with a closure mutating `target` and `path`: on a match
with path elements remaining it re-enters `protoFields` on the matched
child and stops the current level's scan, and on a match with the path
exhausted it stores the child in `found`.  Because ids are unique within
one level (struct tags and slice indices are distinct), that is exactly
this recursion on the remaining path. -/
def walkNode : GoNode → List Int → Option GoNode
  | node, [] => some node
  | node, t :: rest =>
    match childAt (protoFields node) t with
    | some child => walkNode child rest
    | none => none

/-- Go interface value produced by the walk: the node's content plus its
identity.  The descriptor tree is allocated once and never copied, so a
pointer into it is determined by the access path from the file root;
`addr` models the pointer as that path. -/
structure GoVal where
  addr : List Int
  node : GoNode

/-- Embedding of `walkPath` (funcs.go): walk from the root file down the
index path; an empty path returns the root file itself, and a failed
step returns nil (`none`).  A successful walk returns the value reached,
whose address is exactly the consumed path. -/
def walkPath (path : List Int) (fd : FileDescriptorProto) : Option GoVal :=
  (walkNode (.file fd) path).map (fun n => { addr := path, node := n })

/-- Go `==` on two interface values that point into the same descriptor
tree (the comparison `i.V == x` in `findCachedItem`): equal dynamic
types are required, pointers compare by identity (here: by access path),
and value-typed nodes — string and int32 slice elements — compare by
value.  Nil pointers of the same type compare equal regardless of which
field they were read from. -/
def goEq (a b : GoVal) : Bool :=
  match a.node, b.node with
  | .strElem s, .strElem t => s == t
  | .intElem m, .intElem n => m == n
  | .strPtr none, .strPtr none => true
  | .intPtr none, .intPtr none => true
  | .labelPtr none, .labelPtr none => true
  | .typePtr none, .typePtr none => true
  | .sciPtr none, .sciPtr none => true
  | _, _ => a.addr == b.addr

/-- Embedding of `cacheItem` (funcs.go): one Location Cache entry.  `V`
is the Go interface value `walkPath` produced for the record's path —
`none` models the nil interface stored when the walk found no node. -/
structure CacheItem where
  V : Option GoVal
  L : SourceCodeLocation

/-- Embedding of `tmplFuncs` (funcs.go / generator.go).
`protoFileDescriptor` is a `*FileDescriptorProto` and may be nil;
`locCache` is a Go slice whose nil state coincides with emptiness
(it only ever grows by `append` from nil). -/
structure TmplFuncs where
  protoFileDescriptor : Option FileDescriptorProto
  outputFile : String
  urlRoot : String
  protoFiles : List FileDescriptorProto
  locCache : List CacheItem

/-- Match of one cache entry against a looked-up value: the comparison
`i.V == x` of `findCachedItem`.  `x` is never the nil interface (the
reflection check at the top of `location` would have panicked on nil),
so a nil `V` matches nothing. -/
def entryMatches (x : GoVal) (i : CacheItem) : Bool :=
  match i.V with
  | some v => goEq v x
  | none => false

/-- Embedding of `findCachedItem` (funcs.go lines 247-254): scan the
cached list in order and return the location of the first entry whose
value is Go-equal to `x`, or nil. -/
def findCachedItem : List CacheItem → GoVal → Option SourceCodeLocation
  | [], _ => none
  | i :: rest, x => if entryMatches x i then some i.L else findCachedItem rest x

/-- Message of the Go runtime's nil-pointer-dereference panic. -/
def nilDerefMsg : String :=
  "runtime error: invalid memory address or nil pointer dereference"

/-- One cache entry as built by the loop in `location`: the walk result
of the record's path, paired with the record. -/
def cacheEntryFor (fd : FileDescriptorProto) (l : SourceCodeLocation) : CacheItem :=
  { V := walkPath l.path fd, L := l }

/-- The Location Cache built for one file from its Location Records. -/
def buildLocCache (fd : FileDescriptorProto) (records : List SourceCodeLocation) :
    List CacheItem :=
  records.map (cacheEntryFor fd)

/-- The cache-building loop of `location` (funcs.go lines 234-242),
including the unconditional dereference
`f.protoFileDescriptor.SourceCodeInfo.Location`: a nil file descriptor
or a nil source-code-info table panics before any entry is built. -/
def buildCache (fd? : Option FileDescriptorProto) : GoResult (List CacheItem) :=
  match fd? with
  | none => .panic nilDerefMsg
  | some fd =>
    match fd.sourceCodeInfo with
    | none => .panic nilDerefMsg
    | some sci => .ok (buildLocCache fd sci.location)

/-- Embedding of `location` (funcs.go lines 225-244): build the cache on
first use (a nil cache), then look the node up.  The reflection check at
the top of the Go function only rejects values from packages other than
the descriptor package; every `GoVal` models a descriptor or builtin
value, for which it passes.  The returned pair carries the lookup result
and the updated receiver state (`f.locCache` is mutated in place). -/
def location (f : TmplFuncs) (x : GoVal) :
    GoResult (Option SourceCodeLocation × TmplFuncs) :=
  if f.locCache.isEmpty then
    match buildCache f.protoFileDescriptor with
    | .panic m => .panic m
    | .ok cache => .ok (findCachedItem cache x, { f with locCache := cache })
  else
    .ok (findCachedItem f.locCache x, f)

/-- Embedding of `getProtoFileFromTarget` (generator.go lines 96-103):
the first input file whose name equals the target. -/
def getProtoFileFromTarget (target : String) (protoFiles : List FileDescriptorProto) :
    Option FileDescriptorProto :=
  protoFiles.find? (fun v => target == v.getName)

/-- Embedding of the `tmplFuncs` construction in `genTarget`
(generator.go lines 63-80): the target file is looked up by name and is
only required to exist when the configured target is nonempty — an empty
target passes a nil `protoFileDescriptor` through.  The fresh funcs
value has a nil location cache. -/
def genTargetFuncs (target outputFile urlRoot : String)
    (protoFiles : List FileDescriptorProto) : Except String TmplFuncs :=
  match getProtoFileFromTarget target protoFiles, target == "" with
  | none, false => .error ("no input proto file for generator target " ++ target)
  | pf, _ =>
    .ok { protoFileDescriptor := pf, outputFile := outputFile, urlRoot := urlRoot,
          protoFiles := protoFiles, locCache := [] }

/-- Modelled from the spec: `util.IsFullyQualified` (the repository's
`util` package is not among the provided sources; spec section 3 — a
fully qualified Symbol Path has a leading separator). -/
def IsFullyQualified (symbolPath : String) : Bool :=
  match symbolPath.data with
  | '.' :: _ => true
  | _ => false

/-- Removal of the leading namespace separator (spec section 4.1 step 1). -/
def stripLeadingDot (s : String) : String :=
  match s.data with
  | '.' :: rest => String.mk rest
  | _ => s

/-- Segments of a symbol path: normalize by removing the leading
separator, then split on the separator (spec section 4.1 step 1). -/
def symbolSegments (sp : String) : List String :=
  goSplitChar '.' (stripLeadingDot sp)

/-- Segments of a package name; an empty package has no segments. -/
def pkgSegments (pkg : String) : List String :=
  if pkg = "" then [] else goSplitChar '.' pkg

/-- Segment-wise prefix test (exact segment match, not substring — spec
section 4.1 step 2). -/
def isSegPrefixOf : List String → List String → Bool
  | [], _ => true
  | _ :: _, [] => false
  | a :: as, b :: bs => if a = b then isSegPrefixOf as bs else false

/-- A resolved Definition: a message or an enum node (spec section 3,
`kind ∈` message, enum). -/
inductive ResolvedDef where
  | msgDef (m : DescriptorProto)
  | enumDef (e : EnumDescriptorProto)

/-- Local name of a Definition. -/
def ResolvedDef.localName : ResolvedDef → Option String
  | .msgDef m => m.name
  | .enumDef e => e.name

/-- Nested candidate Definitions of a Definition: a message owns its
nested messages and enums, an enum owns none. -/
def ResolvedDef.nested : ResolvedDef → List ResolvedDef
  | .msgDef m => m.nestedType.map .msgDef ++ m.enumType.map .enumDef
  | .enumDef _ => []

/-- Top-level Definitions of a file (its messages and enums). -/
def topCandidates (f : FileDescriptorProto) : List ResolvedDef :=
  f.messageType.map .msgDef ++ f.enumType.map .enumDef

/-- Modelled from the spec: the nested-type chain lookup of
`util.Resolver` (spec section 4.1 step 3) — take the next segment, find
a Definition in the candidate list whose local name equals it; descend
into its nested types while segments remain; the Definition found by the
last segment is the match; a missing segment fails. -/
def chainResolve : List String → List ResolvedDef → Option ResolvedDef
  | [], _ => none
  | s :: rest, cands =>
    match cands.find? (fun d => d.localName == some s) with
    | none => none
    | some d => if rest.isEmpty then some d else chainResolve rest d.nested

/-- Package-prefix test for one file (spec section 4.1 step 2): the
file's package segments are a segment-wise prefix of the symbol's. -/
def filePrefixMatches (sp : String) (f : FileDescriptorProto) : Bool :=
  isSegPrefixOf (pkgSegments f.getPackage) (symbolSegments sp)

/-- Leftover symbol segments after removing a file's package prefix. -/
def leftoverSegments (sp : String) (f : FileDescriptorProto) : List String :=
  (symbolSegments sp).drop (pkgSegments f.getPackage).length

/-- Modelled from the spec: `util.Resolver.Resolve` (spec section 4.1).
Files are scanned in caller-supplied order; the first file whose package
is a segment-wise prefix of the symbol is committed to, and the
remaining segments must resolve through its nested-type chain.  Failure
inside that file is terminal — resolution does not backtrack into later
files (step 4's deliberate first-matching-namespace-wins
simplification).  No match is a normal non-error result (nil, nil). -/
def Resolve (symbolPath : String) (files : List FileDescriptorProto) :
    Option ResolvedDef × Option FileDescriptorProto :=
  match files.find? (filePrefixMatches symbolPath) with
  | none => (none, none)
  | some f =>
    match chainResolve (leftoverSegments symbolPath f) (topCandidates f) with
    | some d => (some d, some f)
    | none => (none, none)

/-- Modelled from the spec: `util.Resolver.ResolveFile` — the file
component of `Resolve`, as used by `urlToType`. -/
def ResolveFile (symbolPath : String) (files : List FileDescriptorProto) :
    Option FileDescriptorProto :=
  (Resolve symbolPath files).2

/-- Modelled from the spec: `util.CountElem` — the number of dotted
elements of a package name (used in `urlToType` to strip the package
prefix off the displayed type path). -/
def CountElem (p : String) : Nat :=
  if p = "" then 0 else (goSplitChar '.' p).length

/-- Dotted join, the inverse of splitting on the separator. -/
def joinDots : List String → String
  | [] => ""
  | [s] => s
  | s :: rest => s ++ "." ++ joinDots rest

/-- Modelled from the spec: `util.TrimElem` — drop the first `n` dotted
elements of a symbol path, yielding a path with no leading separator
(the comment in `urlToType`: ".pkg.Type.SubType" trimmed by the
package's one element gives "Type.SubType"). -/
def TrimElem (p : String) (n : Nat) : String :=
  joinDots ((goSplitChar '.' (stripLeadingDot p)).drop n)

/-- Embedding of `urlToType` (funcs.go lines 174-199): panic on a bare
symbol path; resolve the declaring file, returning the empty string when
resolution misses; otherwise build the documentation URL with a
fully-qualified hash. -/
def urlToType (f : TmplFuncs) (symbolPath : String) : GoResult String :=
  if !(IsFullyQualified symbolPath) then
    .panic "urlToType: not a fully-qualified symbol path"
  else
    match ResolveFile symbolPath f.protoFiles with
    | none => .ok ""
    | some file =>
      let pkgPath := file.getName
      let typePath := TrimElem symbolPath (CountElem file.getPackage)
      let p := goPathJoin f.urlRoot (trimExt pkgPath ++ goExt f.outputFile)
      .ok (p ++ "#" ++ typePath)

/-- Embedding of `typeURL` (the variant of `urlToType` without the
fully-qualified guard): empty string when no file resolves. -/
def typeURL (f : TmplFuncs) (symbolPath : String) : String :=
  match (Resolve symbolPath f.protoFiles).2 with
  | none => ""
  | some file =>
    let pkgPath := file.getName
    let typePath := TrimElem symbolPath (CountElem file.getPackage)
    let p := goPathJoin f.urlRoot (trimExt pkgPath ++ goExt f.outputFile)
    p ++ "#" ++ typePath

/-- Modelled from the spec (refinement target of section 4.2 / design
note 1): the explicit, per-node-kind static table mapping each
schema-assigned tag number to its child accessor — File has
name 1, package 2, dependency 3, top-level messages 4, top-level
enums 5, extensions 7, source-code info 9, public dependencies 10, weak
dependencies 11, syntax 12; a message-kind Definition has name 1,
fields 2, nested types 3, nested enums 4, extensions 6, reserved
names 10; an enum-kind Definition has name 1 and enum-values 2; Field
has name 1, extendee 2, number 3, label 4, type 5, type name 6,
default 7, oneof index 9, json name 10. -/
def staticChildTable : GoNode → Int → Option GoNode
  | .file f, t =>
    if t = 1 then some (.strPtr f.name)
    else if t = 2 then some (.strPtr f.package)
    else if t = 3 then some (.strList f.dependency)
    else if t = 4 then some (.msgList f.messageType)
    else if t = 5 then some (.enumList f.enumType)
    else if t = 7 then some (.fieldList f.extensionList)
    else if t = 9 then some (.sciPtr f.sourceCodeInfo)
    else if t = 10 then some (.intList f.publicDependency)
    else if t = 11 then some (.intList f.weakDependency)
    else if t = 12 then some (.strPtr f.syntaxField)
    else none
  | .msg m, t =>
    if t = 1 then some (.strPtr m.name)
    else if t = 2 then some (.fieldList m.field)
    else if t = 3 then some (.msgList m.nestedType)
    else if t = 4 then some (.enumList m.enumType)
    else if t = 6 then some (.fieldList m.extensionList)
    else if t = 10 then some (.strList m.reservedName)
    else none
  | .enum e, t =>
    if t = 1 then some (.strPtr e.name)
    else if t = 2 then some (.enumValueList e.value)
    else none
  | .fieldD f, t =>
    if t = 1 then some (.strPtr f.name)
    else if t = 2 then some (.strPtr f.extendee)
    else if t = 3 then some (.intPtr f.number)
    else if t = 4 then some (.labelPtr f.label)
    else if t = 5 then some (.typePtr f.type)
    else if t = 6 then some (.strPtr f.typeName)
    else if t = 7 then some (.strPtr f.defaultValue)
    else if t = 9 then some (.intPtr f.oneofIndex)
    else if t = 10 then some (.strPtr f.jsonName)
    else none
  | _, _ => none

/-- Fixture: a primitive-typed field `id = 1`. -/
def fld0 : FieldDescriptorProto :=
  { name := some "id", number := some 1, label := some 1, type := some 5,
    typeName := none, extendee := none, defaultValue := none,
    oneofIndex := none, jsonName := none }

/-- Fixture: a nested message `Bar`. -/
def nested0 : DescriptorProto := .mk (some "Bar") [] [] [] [] []

/-- Fixture: a top-level message `Foo` with one field and one nested type. -/
def msg0 : DescriptorProto := .mk (some "Foo") [fld0] [] [nested0] [] []

/-- Fixture: a Location Record whose index path `[4, 0]` denotes the
first top-level message. -/
def locA : SourceCodeLocation :=
  { path := [4, 0], span := [1, 0, 5], leadingComments := some "a doc",
    trailingComments := none, leadingDetachedComments := [] }

/-- Fixture: a Location Record with the unknown tag number 99 — its path
walks to no node. -/
def loc99 : SourceCodeLocation :=
  { path := [99], span := [2, 0, 3], leadingComments := none,
    trailingComments := none, leadingDetachedComments := [] }

/-- Fixture: a file with package `world.building`, one message `Foo`, one
dependency, and two Location Records (one resolving, one not). -/
def fd0 : FileDescriptorProto :=
  { name := some "world/region/building.proto", package := some "world.building",
    dependency := ["dep.proto"], publicDependency := [], weakDependency := [],
    messageType := [msg0], enumType := [], extensionList := [],
    sourceCodeInfo := some { location := [locA, loc99] }, syntaxField := none }

/-- Fixture: the message `Options`. -/
def optionsMsg : DescriptorProto := .mk (some "Options") [] [] [] [] []

/-- Fixture: a file with package `world.building` that does not declare
`Options`. -/
def fdOther : FileDescriptorProto :=
  { name := some "other.proto", package := some "world.building",
    dependency := [], publicDependency := [], weakDependency := [],
    messageType := [msg0], enumType := [], extensionList := [],
    sourceCodeInfo := none, syntaxField := none }

/-- Fixture: a file with the same package `world.building` that declares
`Options`. -/
def fdOptions : FileDescriptorProto :=
  { name := some "world/region/building.proto", package := some "world.building",
    dependency := [], publicDependency := [], weakDependency := [],
    messageType := [optionsMsg], enumType := [], extensionList := [],
    sourceCodeInfo := none, syntaxField := none }

/-- Fixture: a file whose only Location Record has an unresolvable path. -/
def fdOnlyBad : FileDescriptorProto :=
  { name := some "bad.proto", package := none,
    dependency := [], publicDependency := [], weakDependency := [],
    messageType := [], enumType := [], extensionList := [],
    sourceCodeInfo := some { location := [loc99] }, syntaxField := none }

/-- Fixture: template funcs with a nil target file descriptor, as
`genTarget` builds them when the configured target is empty. -/
def tfNil : TmplFuncs :=
  { protoFileDescriptor := none, outputFile := "", urlRoot := "",
    protoFiles := [], locCache := [] }

/-- Fixture: template funcs whose target file is `fd0`. -/
def tf0 : TmplFuncs := { tfNil with protoFileDescriptor := some fd0 }

/-- Fixture: template funcs whose loaded files are just `fdOther`. -/
def tfWorld : TmplFuncs := { tfNil with protoFiles := [fdOther] }

end ProtoGenHtml

namespace ProtoGenHtml

theorem goEq_refl (v : GoVal) : goEq v v = true := by
  obtain ⟨addr, node⟩ := v
  cases node <;> (rename_i o; cases o <;> simp [goEq])

theorem findCachedItem_of_skip (l1 l2 : List CacheItem) (x : GoVal)
    (h : ∀ j ∈ l1, entryMatches x j = false) :
    findCachedItem (l1 ++ l2) x = findCachedItem l2 x := by
  induction l1 with
  | nil => rfl
  | cons a as ih =>
    have ha : entryMatches x a = false := h a (by simp)
    simpa [findCachedItem, ha] using ih (fun j hj => h j (by simp [hj]))

theorem findCachedItem_none_entry (l1 l2 : List CacheItem)
    (l : SourceCodeLocation) (x : GoVal) :
    findCachedItem (l1 ++ { V := none, L := l } :: l2) x
      = findCachedItem (l1 ++ l2) x := by
  induction l1 with
  | nil => simp [findCachedItem, entryMatches]
  | cons a as ih =>
    cases hxa : entryMatches x a <;> simp [findCachedItem, hxa, ih]

theorem walkNode_append (p1 p2 : List Int) (n : GoNode) :
    walkNode n (p1 ++ p2) = (walkNode n p1).bind (fun m => walkNode m p2) := by
  induction p1 generalizing n with
  | nil => simp [walkNode]
  | cons t rest ih =>
    rcases hc : childAt (protoFields n) t with _ | child <;>
      simp [walkNode, hc, ih]

theorem find?_first_true {α : Type} (p : α → Bool) (pre : List α) (f : α)
    (post : List α) (hpre : ∀ g ∈ pre, p g = false) (hf : p f = true) :
    (pre ++ f :: post).find? p = some f := by
  induction pre with
  | nil => simp [List.find?, hf]
  | cons a as ih =>
    have ha : p a = false := hpre a (by simp)
    simpa [List.find?, ha] using ih (fun g hg => hpre g (by simp [hg]))

/-- C9: for every file, `walkPath` applied to the empty index-path
returns the root File itself (the `len(path) == 0` branch returns
`f.protoFileDescriptor`). -/
theorem walkPath_nil_returns_root (fd : FileDescriptorProto) :
    walkPath [] fd = some { addr := [], node := .file fd } := rfl

/-- C3 (counterexample): a bare symbol path given to the strict entry
point `urlToType` is not rejected with a typed validation error returned
to the caller — the call panics (`panic("urlToType: not a
fully-qualified symbol path")`), aborting the process.  The only
outcomes of the embedded function are an ordinary return (`ok`) and a
panic, and the bare path "foo.Bar" produces the panic. -/
theorem urlToType_bare_path_panic_counterexample :
    urlToType tfNil "foo.Bar"
      = .panic "urlToType: not a fully-qualified symbol path" := rfl

/-- C3 (amended): every bare (non-fully-qualified) symbol path passed to
`urlToType` is rejected — never silently misresolved — but by a Go
panic with a fixed message, not by a typed error result returned to the
caller. -/
theorem urlToType_bare_path_panics (tf : TmplFuncs) (sp : String)
    (h : IsFullyQualified sp = false) :
    urlToType tf sp = .panic "urlToType: not a fully-qualified symbol path" := by
  unfold urlToType
  rw [h]
  simp

/-- Witness for `urlToType_bare_path_panics` at the bare path
"world.building.Options". -/
theorem urlToType_bare_path_panics_witness :
    urlToType tfNil "world.building.Options"
      = .panic "urlToType: not a fully-qualified symbol path" :=
  urlToType_bare_path_panics tfNil "world.building.Options" rfl

/-- C4: an index-path step whose tag number or index matches no child of
the current node makes the whole walk return no node (`walkPath` is a
total function into an option — there is no exception to raise), and a
Location Record whose path fails to walk is cached as a nil entry that
never changes the result of any lookup on the same file. -/
theorem walk_unknown_step_none_no_poison :
    (∀ (fd : FileDescriptorProto) (p1 : List Int) (v : GoVal) (t : Int)
      (p2 : List Int),
      walkPath p1 fd = some v → childAt (protoFields v.node) t = none →
      walkPath (p1 ++ t :: p2) fd = none)
    ∧ (∀ (fd : FileDescriptorProto) (pre post : List SourceCodeLocation)
      (bad : SourceCodeLocation) (x : GoVal),
      walkPath bad.path fd = none →
      findCachedItem (buildLocCache fd (pre ++ bad :: post)) x
        = findCachedItem (buildLocCache fd (pre ++ post)) x) := by
  constructor
  · intro fd p1 v t p2 h1 h2
    unfold walkPath at h1 ⊢
    rcases hw : walkNode (.file fd) p1 with _ | n
    · rw [hw] at h1
      exact absurd h1 (by simp)
    · rw [hw] at h1
      simp only [Option.map_some', Option.some.injEq] at h1
      rw [← h1] at h2
      simp only at h2
      rw [walkNode_append, hw]
      simp [walkNode, h2]
  · intro fd pre post bad x hbad
    have hmap : buildLocCache fd (pre ++ bad :: post)
        = buildLocCache fd pre ++ { V := none, L := bad } :: buildLocCache fd post := by
      simp [buildLocCache, cacheEntryFor, hbad]
    rw [hmap, findCachedItem_none_entry]
    simp [buildLocCache]

/-- Witness for `walk_unknown_step_none_no_poison`: in `fd0`, the walk
`[4, 0]` reaches the message `Foo`, which has no child with tag 99, so
`[4, 0, 99]` walks to no node; and the failing record `loc99` does not
change the lookup of the dependency string. -/
theorem walk_unknown_step_none_no_poison_witness :
    walkPath ([4, 0] ++ 99 :: []) fd0 = none
    ∧ findCachedItem (buildLocCache fd0 ([locA] ++ loc99 :: []))
        { addr := [3, 0], node := .strElem "dep.proto" }
      = findCachedItem (buildLocCache fd0 ([locA] ++ []))
        { addr := [3, 0], node := .strElem "dep.proto" } :=
  ⟨walk_unknown_step_none_no_poison.1 fd0 [4, 0]
      { addr := [4, 0], node := .msg msg0 } 99 [] rfl rfl,
   walk_unknown_step_none_no_poison.2 fd0 [locA] [] loc99
      { addr := [3, 0], node := .strElem "dep.proto" } rfl⟩

/-- C10: `genTarget` permits a nil target file descriptor when the
configured target is empty (the existence check is skipped), and the
first `location` call on funcs whose target descriptor is nil — or whose
descriptor has a nil source-code-info table — dereferences it
unconditionally while building the cache and panics instead of returning
a none result. -/
theorem location_nil_descriptor_panics :
    (∀ (protoFiles : List FileDescriptorProto) (out root : String),
      (∀ fd ∈ protoFiles, fd.getName ≠ "") →
      genTargetFuncs "" out root protoFiles
        = .ok { protoFileDescriptor := none, outputFile := out, urlRoot := root,
                protoFiles := protoFiles, locCache := [] })
    ∧ (∀ (tf : TmplFuncs) (x : GoVal), tf.locCache = [] →
      (tf.protoFileDescriptor = none
        ∨ ∃ fd, tf.protoFileDescriptor = some fd ∧ fd.sourceCodeInfo = none) →
      location tf x = .panic nilDerefMsg) := by
  constructor
  · intro files out root h
    have hnone : getProtoFileFromTarget "" files = none := by
      unfold getProtoFileFromTarget
      rw [List.find?_eq_none]
      intro a ha
      simp only [Bool.not_eq_true, beq_eq_false_iff_ne]
      exact fun e => h a ha e.symm
    unfold genTargetFuncs
    rw [hnone]
    simp
  · intro tf x h1 h2
    unfold location
    rw [h1]
    rcases h2 with h2 | ⟨fd, hfd, hsci⟩
    · rw [h2]
      rfl
    · rw [hfd]
      simp [buildCache, hsci]

/-- Witness for `location_nil_descriptor_panics` at a one-file input
with a nonempty name, at funcs with a nil descriptor, and at funcs whose
descriptor (`fdOther`) has no source-code info. -/
theorem location_nil_descriptor_panics_witness :
    genTargetFuncs "" "out.html" "" [fdOther]
      = .ok { protoFileDescriptor := none, outputFile := "out.html", urlRoot := "",
              protoFiles := [fdOther], locCache := [] }
    ∧ location tfNil { addr := [], node := .strElem "x" } = .panic nilDerefMsg
    ∧ location { tfNil with protoFileDescriptor := some fdOther }
        { addr := [], node := .strElem "x" } = .panic nilDerefMsg :=
  ⟨location_nil_descriptor_panics.1 [fdOther] "out.html" ""
      (by intro fd hfd; simp only [List.mem_singleton] at hfd; subst hfd; decide),
   location_nil_descriptor_panics.2 tfNil { addr := [], node := .strElem "x" }
      rfl (Or.inl rfl),
   location_nil_descriptor_panics.2 { tfNil with protoFileDescriptor := some fdOther }
      { addr := [], node := .strElem "x" } rfl (Or.inr ⟨fdOther, rfl, rfl⟩)⟩

/-- C2 (counterexample): the round-trip identity does not hold for every
Location Record — `fd0` carries the record `loc99`, and walking its path
`[99]` from the file's root returns no node, so the walk step of the
round trip already fails. -/
theorem record_walk_fails_counterexample :
    fd0.sourceCodeInfo = some { location := [locA, loc99] }
    ∧ loc99 ∈ [locA, loc99]
    ∧ walkPath loc99.path fd0 = none :=
  ⟨rfl, by simp, rfl⟩

/-- C2 (amended): the round trip holds for resolving records that are
first for their node — for every Location Record whose index-path walks
to a node, if no earlier record of the same file walks to a Go-equal
node, then the first `location` call on a fresh funcs value returns
exactly that record (hence its span), caching the file's records as
built. -/
theorem roundtrip_first_resolving_record (tf : TmplFuncs)
    (fd : FileDescriptorProto) (pre post : List SourceCodeLocation)
    (loc : SourceCodeLocation) (v : GoVal)
    (h1 : tf.protoFileDescriptor = some fd)
    (h2 : tf.locCache = [])
    (h3 : fd.sourceCodeInfo = some { location := pre ++ loc :: post })
    (h4 : walkPath loc.path fd = some v)
    (h5 : ∀ l' ∈ pre, ∀ v', walkPath l'.path fd = some v' → goEq v' v = false) :
    location tf v
      = .ok (some loc, { tf with locCache := buildLocCache fd (pre ++ loc :: post) }) := by
  have hfind : findCachedItem (buildLocCache fd (pre ++ loc :: post)) v = some loc := by
    have hsk : ∀ j ∈ buildLocCache fd pre, entryMatches v j = false := by
      intro j hj
      simp only [buildLocCache, List.mem_map] at hj
      obtain ⟨l', hl', rfl⟩ := hj
      unfold entryMatches cacheEntryFor
      rcases hw : walkPath l'.path fd with _ | v'
      · rfl
      · simpa using h5 l' hl' v' hw
    have hsplit : buildLocCache fd (pre ++ loc :: post)
        = buildLocCache fd pre ++ cacheEntryFor fd loc :: buildLocCache fd post := by
      simp [buildLocCache]
    have hm : entryMatches v (cacheEntryFor fd loc) = true := by
      unfold entryMatches cacheEntryFor
      rw [h4]
      simp [goEq_refl]
    rw [hsplit, findCachedItem_of_skip _ _ _ hsk]
    simp only [findCachedItem, hm, if_true]
    rfl
  unfold location
  rw [h1, h2]
  simp [buildCache, h3, hfind]

/-- Witness for `roundtrip_first_resolving_record`: in `tf0` the record
`locA` is first, its path `[4, 0]` walks to the message `Foo`, and the
lookup of that node returns `locA`. -/
theorem roundtrip_first_resolving_record_witness :
    location tf0 { addr := [4, 0], node := .msg msg0 }
      = .ok (some locA, { tf0 with locCache := buildLocCache fd0 ([] ++ locA :: [loc99]) }) :=
  roundtrip_first_resolving_record tf0 fd0 [] [loc99] locA
    { addr := [4, 0], node := .msg msg0 } rfl rfl rfl rfl
    (fun l' h => absurd h (List.not_mem_nil l'))

/-- C5 (counterexample): a Location Record whose path walks to no node is
not omitted from the cache built for its file — building the cache for
`fdOnlyBad`, whose only record is the failing `loc99`, yields a
one-entry cache (holding a nil walk result), not the empty cache that
omission would produce. -/
theorem failed_record_kept_in_cache_counterexample :
    buildCache (some fdOnlyBad) = .ok [{ V := none, L := loc99 }]
    ∧ ([{ V := none, L := loc99 }] : List CacheItem) ≠ [] :=
  ⟨rfl, by simp⟩

/-- C5 (amended): a Location Record whose path walks to no node is kept
in the cache as an entry with a nil node; the build still succeeds (it
is not an error), and the nil entry can never match any lookup, so every
lookup behaves exactly as if the record had been omitted. -/
theorem failed_record_inert_in_cache (fd : FileDescriptorProto)
    (pre post : List SourceCodeLocation) (bad : SourceCodeLocation)
    (hbad : walkPath bad.path fd = none) :
    (buildLocCache fd (pre ++ bad :: post)
      = buildLocCache fd pre ++ { V := none, L := bad } :: buildLocCache fd post)
    ∧ (∀ x, findCachedItem (buildLocCache fd (pre ++ bad :: post)) x
        = findCachedItem (buildLocCache fd (pre ++ post)) x)
    ∧ (fd.sourceCodeInfo = some { location := pre ++ bad :: post } →
        buildCache (some fd) = .ok (buildLocCache fd (pre ++ bad :: post))) := by
  have hmap : buildLocCache fd (pre ++ bad :: post)
      = buildLocCache fd pre ++ { V := none, L := bad } :: buildLocCache fd post := by
    simp [buildLocCache, cacheEntryFor, hbad]
  refine ⟨hmap, ?_, ?_⟩
  · intro x
    rw [hmap, findCachedItem_none_entry]
    simp [buildLocCache]
  · intro hsci
    simp [buildCache, hsci]

/-- Witness for `failed_record_inert_in_cache` at `fd0` and its failing
record `loc99`. -/
theorem failed_record_inert_in_cache_witness :
    (buildLocCache fd0 ([locA] ++ loc99 :: [])
      = buildLocCache fd0 [locA] ++ { V := none, L := loc99 } :: buildLocCache fd0 [])
    ∧ findCachedItem (buildLocCache fd0 ([locA] ++ loc99 :: []))
        { addr := [4, 0], node := .msg msg0 }
      = findCachedItem (buildLocCache fd0 ([locA] ++ []))
        { addr := [4, 0], node := .msg msg0 }
    ∧ buildCache (some fd0) = .ok (buildLocCache fd0 ([locA] ++ loc99 :: [])) :=
  ⟨(failed_record_inert_in_cache fd0 [locA] [] loc99 rfl).1,
   (failed_record_inert_in_cache fd0 [locA] [] loc99 rfl).2.1
      { addr := [4, 0], node := .msg msg0 },
   (failed_record_inert_in_cache fd0 [locA] [] loc99 rfl).2.2 rfl⟩

/-- C6: `findCachedItem` scans the cached list in order and returns the
location of the first entry whose stored value is identical to the
looked-up node (Go interface equality: reference identity for descriptor
nodes), or none when no entry matches; and two structurally equal
message definitions at different addresses are never Go-equal, so they
are never confused. -/
theorem findCachedItem_first_identity_match :
    (∀ (l1 : List CacheItem) (i : CacheItem) (l2 : List CacheItem) (x : GoVal),
      entryMatches x i = true → (∀ j ∈ l1, entryMatches x j = false) →
      findCachedItem (l1 ++ i :: l2) x = some i.L)
    ∧ (∀ (cache : List CacheItem) (x : GoVal),
      (∀ j ∈ cache, entryMatches x j = false) → findCachedItem cache x = none)
    ∧ (∀ (m : DescriptorProto) (a1 a2 : List Int), a1 ≠ a2 →
      goEq { addr := a1, node := .msg m } { addr := a2, node := .msg m } = false)
    ∧ (∀ (a : List Int) (m : DescriptorProto),
      goEq { addr := a, node := .msg m } { addr := a, node := .msg m } = true) := by
  refine ⟨?_, ?_, ?_, ?_⟩
  · intro l1 i l2 x h1 h2
    rw [findCachedItem_of_skip _ _ _ h2]
    simp [findCachedItem, h1]
  · intro cache x h
    induction cache with
    | nil => rfl
    | cons a as ih =>
      have ha : entryMatches x a = false := h a (by simp)
      simpa [findCachedItem, ha] using ih (fun j hj => h j (by simp [hj]))
  · intro m a1 a2 h
    show (a1 == a2) = false
    exact beq_eq_false_iff_ne.mpr h
  · intro a m
    exact goEq_refl { addr := a, node := .msg m }

/-- Witness for `findCachedItem_first_identity_match`: a lookup of the
message `Foo` at address `[4, 0]` skips an unmatched nil entry and
returns the first identical entry; a cache without a match returns none;
and the two addresses `[4, 0]` and `[3, 0]` of one identical message
content are not Go-equal. -/
theorem findCachedItem_first_identity_match_witness :
    findCachedItem ([{ V := none, L := loc99 }]
        ++ { V := some { addr := [4, 0], node := .msg msg0 }, L := locA } :: [])
      { addr := [4, 0], node := .msg msg0 } = some locA
    ∧ findCachedItem [{ V := none, L := locA }]
        { addr := [4, 0], node := .msg msg0 } = none
    ∧ goEq { addr := [4, 0], node := .msg msg0 } { addr := [3, 0], node := .msg msg0 }
        = false
    ∧ goEq { addr := [4, 0], node := .msg msg0 } { addr := [4, 0], node := .msg msg0 }
        = true :=
  ⟨findCachedItem_first_identity_match.1 [{ V := none, L := loc99 }]
      { V := some { addr := [4, 0], node := .msg msg0 }, L := locA } []
      { addr := [4, 0], node := .msg msg0 } rfl
      (by intro j hj; simp only [List.mem_singleton] at hj; subst hj; rfl),
   findCachedItem_first_identity_match.2.1 [{ V := none, L := locA }]
      { addr := [4, 0], node := .msg msg0 }
      (by intro j hj; simp only [List.mem_singleton] at hj; subst hj; rfl),
   findCachedItem_first_identity_match.2.2.1 msg0 [4, 0] [3, 0] (by simp),
   findCachedItem_first_identity_match.2.2.2 [4, 0] msg0⟩

/-- C7: when no loaded file fully matches a symbol (no file both has a
package prefix of the symbol and resolves the remaining segments),
`Resolve` returns no Definition and no File as an ordinary non-error
result, and both callers suppress hyperlink generation: `urlToType`
returns the empty string (for a well-formed fully-qualified path) and so
does `typeURL`. -/
theorem resolve_miss_total_suppresses_link (tf : TmplFuncs) (sp : String)
    (h : ∀ f ∈ tf.protoFiles, filePrefixMatches sp f = true →
      chainResolve (leftoverSegments sp f) (topCandidates f) = none) :
    Resolve sp tf.protoFiles = (none, none)
    ∧ (IsFullyQualified sp = true → urlToType tf sp = .ok "")
    ∧ typeURL tf sp = "" := by
  have hres : Resolve sp tf.protoFiles = (none, none) := by
    unfold Resolve
    rcases hf : tf.protoFiles.find? (filePrefixMatches sp) with _ | f
    · rfl
    · have hmem := List.mem_of_find?_eq_some hf
      have hp := List.find?_some hf
      simp [h f hmem hp]
  refine ⟨hres, ?_, ?_⟩
  · intro hfq
    unfold urlToType
    rw [hfq]
    simp [ResolveFile, hres]
  · unfold typeURL
    rw [hres]

/-- Witness for `resolve_miss_total_suppresses_link`: the symbol
".absent.Type" matches no file of `tfWorld` (its one file has package
`world.building`), so resolution and both URL builders miss. -/
theorem resolve_miss_total_suppresses_link_witness :
    Resolve ".absent.Type" tfWorld.protoFiles = (none, none)
    ∧ (IsFullyQualified ".absent.Type" = true →
        urlToType tfWorld ".absent.Type" = .ok "")
    ∧ typeURL tfWorld ".absent.Type" = "" :=
  resolve_miss_total_suppresses_link tfWorld ".absent.Type"
    (by
      intro f hf hp
      simp only [tfWorld, tfNil, List.mem_singleton] at hf
      subst hf
      exact absurd hp (by decide))

/-- C1 (counterexample): `Resolve` does not return the first file whose
package is a prefix and whose remaining segments resolve — with two
files sharing package `world.building` where only the second declares
`Options`, resolution of ".world.building.Options" commits to the first
prefix-matching file, fails there, and returns no match, even though the
second file satisfies the claimed condition. -/
theorem resolve_no_backtracking_counterexample :
    Resolve ".world.building.Options" [fdOther, fdOptions] = (none, none)
    ∧ filePrefixMatches ".world.building.Options" fdOptions = true
    ∧ chainResolve (leftoverSegments ".world.building.Options" fdOptions)
        (topCandidates fdOptions) = some (.msgDef optionsMsg) :=
  ⟨rfl, rfl, rfl⟩

/-- C1 (amended): `Resolve` commits to the first file (in caller order)
whose package is a segment-wise prefix of the symbol: if the remaining
segments resolve through that file's nested-type chain the pair is
returned, and otherwise the result is no match — deterministically and
file-order-dependently, with no backtracking into later files (so
".world.building.Options" resolves to the declaring file exactly when it
is the first prefix-matching file). -/
theorem resolve_first_prefix_file_terminal (sp : String)
    (pre : List FileDescriptorProto) (f : FileDescriptorProto)
    (post : List FileDescriptorProto)
    (hpre : ∀ g ∈ pre, filePrefixMatches sp g = false)
    (hf : filePrefixMatches sp f = true) :
    (∀ d, chainResolve (leftoverSegments sp f) (topCandidates f) = some d →
      Resolve sp (pre ++ f :: post) = (some d, some f))
    ∧ (chainResolve (leftoverSegments sp f) (topCandidates f) = none →
      Resolve sp (pre ++ f :: post) = (none, none)) := by
  have hfind := find?_first_true (filePrefixMatches sp) pre f post hpre hf
  constructor
  · intro d hd
    unfold Resolve
    rw [hfind]
    simp [hd]
  · intro hd
    unfold Resolve
    rw [hfind]
    simp [hd]

/-- Witness for `resolve_first_prefix_file_terminal`: with the declaring
file first the symbol resolves to it; with the symbol-lacking
same-package file first, resolution is terminal and returns no match. -/
theorem resolve_first_prefix_file_terminal_witness :
    Resolve ".world.building.Options" ([] ++ fdOptions :: [fdOther])
      = (some (.msgDef optionsMsg), some fdOptions)
    ∧ Resolve ".world.building.Options" ([] ++ fdOther :: [fdOptions])
      = (none, none) :=
  ⟨(resolve_first_prefix_file_terminal ".world.building.Options" [] fdOptions
      [fdOther] (fun g hg => absurd hg (List.not_mem_nil g)) rfl).1
      (.msgDef optionsMsg) rfl,
   (resolve_first_prefix_file_terminal ".world.building.Options" [] fdOther
      [fdOptions] (fun g hg => absurd hg (List.not_mem_nil g)) rfl).2 rfl⟩

theorem protoFields_file_parsed (f : FileDescriptorProto) :
    protoFields (.file f)
      = [((1 : Int), GoNode.strPtr f.name), ((2 : Int), .strPtr f.package),
         ((3 : Int), .strList f.dependency), ((10 : Int), .intList f.publicDependency),
         ((11 : Int), .intList f.weakDependency), ((4 : Int), .msgList f.messageType),
         ((5 : Int), .enumList f.enumType), ((7 : Int), .fieldList f.extensionList),
         ((9 : Int), .sciPtr f.sourceCodeInfo), ((12 : Int), .strPtr f.syntaxField)] := rfl

theorem protoFields_msg_parsed (m : DescriptorProto) :
    protoFields (.msg m)
      = [((1 : Int), GoNode.strPtr m.name), ((2 : Int), .fieldList m.field),
         ((6 : Int), .fieldList m.extensionList), ((3 : Int), .msgList m.nestedType),
         ((4 : Int), .enumList m.enumType), ((10 : Int), .strList m.reservedName)] := rfl

theorem protoFields_enum_parsed (e : EnumDescriptorProto) :
    protoFields (.enum e)
      = [((1 : Int), GoNode.strPtr e.name), ((2 : Int), .enumValueList e.value)] := rfl

theorem protoFields_fieldD_parsed (fl : FieldDescriptorProto) :
    protoFields (.fieldD fl)
      = [((1 : Int), GoNode.strPtr fl.name), ((3 : Int), .intPtr fl.number),
         ((4 : Int), .labelPtr fl.label), ((5 : Int), .typePtr fl.type),
         ((6 : Int), .strPtr fl.typeName), ((2 : Int), .strPtr fl.extendee),
         ((7 : Int), .strPtr fl.defaultValue), ((9 : Int), .intPtr fl.oneofIndex),
         ((10 : Int), .strPtr fl.jsonName)] := rfl

theorem childAt_cons_ne (c : Int × GoNode) (rest : List (Int × GoNode)) (t : Int)
    (h : ¬ c.1 = t) : childAt (c :: rest) t = childAt rest t := by
  simp [childAt, h]

theorem childAt_file_eq_static (f : FileDescriptorProto) (t : Int) :
    childAt (protoFields (.file f)) t = staticChildTable (.file f) t := by
  rw [protoFields_file_parsed]
  by_cases h1 : t = 1
  · subst h1; rfl
  by_cases h2 : t = 2
  · subst h2; rfl
  by_cases h3 : t = 3
  · subst h3; rfl
  by_cases h4 : t = 4
  · subst h4; rfl
  by_cases h5 : t = 5
  · subst h5; rfl
  by_cases h7 : t = 7
  · subst h7; rfl
  by_cases h9 : t = 9
  · subst h9; rfl
  by_cases h10 : t = 10
  · subst h10; rfl
  by_cases h11 : t = 11
  · subst h11; rfl
  by_cases h12 : t = 12
  · subst h12; rfl
  rw [childAt_cons_ne _ _ _ (fun e => h1 e.symm),
      childAt_cons_ne _ _ _ (fun e => h2 e.symm),
      childAt_cons_ne _ _ _ (fun e => h3 e.symm),
      childAt_cons_ne _ _ _ (fun e => h10 e.symm),
      childAt_cons_ne _ _ _ (fun e => h11 e.symm),
      childAt_cons_ne _ _ _ (fun e => h4 e.symm),
      childAt_cons_ne _ _ _ (fun e => h5 e.symm),
      childAt_cons_ne _ _ _ (fun e => h7 e.symm),
      childAt_cons_ne _ _ _ (fun e => h9 e.symm),
      childAt_cons_ne _ _ _ (fun e => h12 e.symm)]
  simp [childAt, staticChildTable, h1, h2, h3, h4, h5, h7, h9, h10, h11, h12]

theorem childAt_msg_eq_static (m : DescriptorProto) (t : Int) :
    childAt (protoFields (.msg m)) t = staticChildTable (.msg m) t := by
  rw [protoFields_msg_parsed]
  by_cases h1 : t = 1
  · subst h1; rfl
  by_cases h2 : t = 2
  · subst h2; rfl
  by_cases h3 : t = 3
  · subst h3; rfl
  by_cases h4 : t = 4
  · subst h4; rfl
  by_cases h6 : t = 6
  · subst h6; rfl
  by_cases h10 : t = 10
  · subst h10; rfl
  rw [childAt_cons_ne _ _ _ (fun e => h1 e.symm),
      childAt_cons_ne _ _ _ (fun e => h2 e.symm),
      childAt_cons_ne _ _ _ (fun e => h6 e.symm),
      childAt_cons_ne _ _ _ (fun e => h3 e.symm),
      childAt_cons_ne _ _ _ (fun e => h4 e.symm),
      childAt_cons_ne _ _ _ (fun e => h10 e.symm)]
  simp [childAt, staticChildTable, h1, h2, h3, h4, h6, h10]

theorem childAt_enum_eq_static (e : EnumDescriptorProto) (t : Int) :
    childAt (protoFields (.enum e)) t = staticChildTable (.enum e) t := by
  rw [protoFields_enum_parsed]
  by_cases h1 : t = 1
  · subst h1; rfl
  by_cases h2 : t = 2
  · subst h2; rfl
  rw [childAt_cons_ne _ _ _ (fun e' => h1 e'.symm),
      childAt_cons_ne _ _ _ (fun e' => h2 e'.symm)]
  simp [childAt, staticChildTable, h1, h2]

theorem childAt_fieldD_eq_static (fl : FieldDescriptorProto) (t : Int) :
    childAt (protoFields (.fieldD fl)) t = staticChildTable (.fieldD fl) t := by
  rw [protoFields_fieldD_parsed]
  by_cases h1 : t = 1
  · subst h1; rfl
  by_cases h2 : t = 2
  · subst h2; rfl
  by_cases h3 : t = 3
  · subst h3; rfl
  by_cases h4 : t = 4
  · subst h4; rfl
  by_cases h5 : t = 5
  · subst h5; rfl
  by_cases h6 : t = 6
  · subst h6; rfl
  by_cases h7 : t = 7
  · subst h7; rfl
  by_cases h9 : t = 9
  · subst h9; rfl
  by_cases h10 : t = 10
  · subst h10; rfl
  rw [childAt_cons_ne _ _ _ (fun e => h1 e.symm),
      childAt_cons_ne _ _ _ (fun e => h3 e.symm),
      childAt_cons_ne _ _ _ (fun e => h4 e.symm),
      childAt_cons_ne _ _ _ (fun e => h5 e.symm),
      childAt_cons_ne _ _ _ (fun e => h6 e.symm),
      childAt_cons_ne _ _ _ (fun e => h2 e.symm),
      childAt_cons_ne _ _ _ (fun e => h7 e.symm),
      childAt_cons_ne _ _ _ (fun e => h9 e.symm),
      childAt_cons_ne _ _ _ (fun e => h10 e.symm)]
  simp [childAt, staticChildTable, h1, h2, h3, h4, h5, h6, h7, h9, h10]

/-- C8: the reflection-based dispatch (`protoFields` parsing protobuf
struct tags at runtime, scanned by the walker via `childAt`) is
extensionally equal to the static, schema-fixed per-node-kind table
mapping each tag number to its child accessor, for every File node,
every Definition node of either kind (message or enum), and every Field
node, at every tag number. -/
theorem protoFields_eq_static_table (t : Int) (f : FileDescriptorProto)
    (m : DescriptorProto) (e : EnumDescriptorProto) (fl : FieldDescriptorProto) :
    childAt (protoFields (.file f)) t = staticChildTable (.file f) t
    ∧ childAt (protoFields (.msg m)) t = staticChildTable (.msg m) t
    ∧ childAt (protoFields (.enum e)) t = staticChildTable (.enum e) t
    ∧ childAt (protoFields (.fieldD fl)) t = staticChildTable (.fieldD fl) t :=
  ⟨childAt_file_eq_static f t, childAt_msg_eq_static m t,
   childAt_enum_eq_static e t, childAt_fieldD_eq_static fl t⟩

end ProtoGenHtml
